import Mathlib

/-!
Verification of the HESTIA Labs telemetry observability core: a shallow
embedding of the trace analyzer (`src/lib/trace-explorer.ts`), the alerting
rule engine (`src/lib/alerts.ts`), the ingest enrichment step
(`src/lib/ingest-service.ts`) and the telemetry schema helpers
(`src/lib/telemetry-types.ts`), with theorems settling the specification
claims about them.
-/

namespace Hestia

/-- Value of a span tag: JS tags are `Record<string, string | number>`. -/
inductive TagValue where
  | str (s : String)
  | num (n : Int)
deriving DecidableEq, Repr

/-- Prefix test on character lists. -/
def charsPrefix : List Char → List Char → Bool
  | [], _ => true
  | _ :: _, [] => false
  | a :: as, b :: bs => a == b && charsPrefix as bs

/-- Occurrence test on character lists: the pattern occurs somewhere in the
haystack (the empty pattern occurs everywhere). -/
def charsContains (pat : List Char) : List Char → Bool
  | [] => pat.isEmpty
  | c :: rest => charsPrefix pat (c :: rest) || charsContains pat rest

/-- JS `String.prototype.includes sub`: some occurrence of `pat` in `s`. -/
def strContains (s pat : String) : Bool :=
  charsContains pat.data s.data

/-- One span of an execution trace (`ExecutionSpan` in telemetry-types.ts),
restricted to the fields the analyzed operations read; the timing fields
are never consulted by the verified functions. -/
structure ExecutionSpan where
  span_id : String
  parent_span_id : Option String
  trace_id : String
  operation_name : String
  service_name : String
  authority_level : String
  authority_boundary : Option String
  status : String
  signature_in_valid : Bool
  tags : List (String × TagValue)
deriving DecidableEq, Repr

/-- An execution trace (`ExecutionTrace` in telemetry-types.ts), restricted
to the fields the analyzed operations read. -/
structure ExecutionTrace where
  trace_id : String
  home_id : String
  spans : List ExecutionSpan
  authority_path : List String
  trace_status : String
deriving DecidableEq, Repr

/-- Look a key up in a span's tag record (JS property access on `tags`). -/
def tagLookup (tags : List (String × TagValue)) (k : String) : Option TagValue :=
  (tags.find? (fun p => p.1 == k)).map (fun p => p.2)

/-- JS truthiness of an optional string: `undefined`, `null` and `""` are falsy. -/
def optStrTruthy : Option String → Bool
  | none => false
  | some s => !(s == "")

/-- trace-explorer.ts:288: `spans.find((s) => s.parent_span_id === currentSpan?.span_id)`. -/
def firstChild (spans : List ExecutionSpan) (sid : String) : Option ExecutionSpan :=
  spans.find? (fun s => s.parent_span_id == some sid)

/-- The loop of `TraceExplorer.extractAuthorityPath` (trace-explorer.ts:282-291):
follow the first matching child, pushing each authority level not already
anywhere in the path. The source loop has no termination guard, so `fuel`
bounds the number of iterations; the claims are stated for arbitrary fuel. -/
def extractAuthorityPathGo (spans : List ExecutionSpan) :
    Nat → Option ExecutionSpan → List String → List String
  | _, none, path => path
  | 0, some _, path => path
  | fuel + 1, some c, path =>
      extractAuthorityPathGo spans fuel (firstChild spans c.span_id)
        (if path.contains c.authority_level then path else path ++ [c.authority_level])

/-- `TraceExplorer.extractAuthorityPath` (trace-explorer.ts:278-293). -/
def extractAuthorityPath (spans : List ExecutionSpan) (rootSpanId : Option String)
    (fuel : Nat) : List String :=
  extractAuthorityPathGo spans fuel
    (rootSpanId.bind (fun rid => spans.find? (fun s => s.span_id == rid))) []

/-- The call site in `enrichTrace` (trace-explorer.ts:190-191): the root span is
the first span with a falsy `parent_span_id`. -/
def reconstructAuthorityPath (spans : List ExecutionSpan) (fuel : Nat) : List String :=
  extractAuthorityPath spans
    ((spans.find? (fun s => !optStrTruthy s.parent_span_id)).map (fun s => s.span_id)) fuel

/-- The raw walk: the sequence of spans visited by the first-child traversal. -/
def walkSpans (spans : List ExecutionSpan) : Nat → Option ExecutionSpan → List ExecutionSpan
  | _, none => []
  | 0, some _ => []
  | fuel + 1, some c => c :: walkSpans spans fuel (firstChild spans c.span_id)

/-- Global deduplication: keep a level only at its first occurrence. -/
def dedupGlobal (l : List String) : List String :=
  l.foldl (fun acc x => if acc.contains x then acc else acc ++ [x]) []

/-- Consecutive deduplication, the reading claimed by the spec sentence:
collapse only adjacent repeats, so a level left and later revisited appears
again. -/
def dedupConsecutive : List String → List String
  | [] => []
  | [a] => [a]
  | a :: b :: rest =>
      if a == b then dedupConsecutive (b :: rest) else a :: dedupConsecutive (b :: rest)

/-- Result record of `TraceAnalyzer.verifySignatureChain`. -/
structure SignatureChainResult where
  valid : Bool
  problems : List String
  verified_spans : Nat
  failed_spans : Nat
deriving DecidableEq, Repr

/-- The span filter of trace-explorer.ts:379-385: the `authority_transition`
tag is a string and contains `"<from>:to:<to>"`. -/
def isTransitionSpan (f t : String) (s : ExecutionSpan) : Bool :=
  match tagLookup s.tags "authority_transition" with
  | some (TagValue.str a) => strContains a (f ++ ":to:" ++ t)
  | _ => false

/-- The filter of trace-explorer.ts:388-390: `tags.signature_status === "verified"`. -/
def hasVerifiedSignatureStatus (s : ExecutionSpan) : Bool :=
  match tagLookup s.tags "signature_status" with
  | some (TagValue.str v) => v == "verified"
  | _ => false

/-- The problem string pushed at trace-explorer.ts:393-395. -/
def transitionProblem (f t : String) (unsigned : Nat) : String :=
  "Authority transition " ++ f ++ "→" ++ t ++ " has " ++ toString unsigned ++ " unsigned spans"

/-- The adjacent-pair loop of trace-explorer.ts:375-397, producing one
problem string per violated transition, in path order. -/
def transitionProblems (trace : ExecutionTrace) : List String :=
  (trace.authority_path.zip trace.authority_path.tail).filterMap (fun p =>
    let ts := trace.spans.filter (isTransitionSpan p.1 p.2)
    let valids := ts.filter hasVerifiedSignatureStatus
    if valids.length ≠ ts.length ∧ 0 < ts.length then
      some (transitionProblem p.1 p.2 (ts.length - valids.length))
    else none)

/-- `TraceAnalyzer.verifySignatureChain` (trace-explorer.ts:355-405). -/
def verifySignatureChain (trace : ExecutionTrace) : SignatureChainResult :=
  let spanProblems := trace.spans.filterMap (fun s =>
    if s.signature_in_valid then none
    else some ("Signature validation failed at " ++ s.service_name))
  let verified := (trace.spans.filter (fun s => s.signature_in_valid)).length
  let failed := (trace.spans.filter (fun s => !s.signature_in_valid)).length
  let problems := spanProblems ++ transitionProblems trace
  { valid := failed == 0 && problems.length == 0,
    problems := problems,
    verified_spans := verified,
    failed_spans := failed }

/-- Concrete trace for the planner-to-safety scenario: first transition span
verified. -/
def spanC1a : ExecutionSpan :=
  { span_id := "s1", parent_span_id := none, trace_id := "tr1",
    operation_name := "plan_command", service_name := "planner",
    authority_level := "Planner", authority_boundary := none,
    status := "succeeded", signature_in_valid := true,
    tags := [("authority_transition", TagValue.str "Planner:to:Safety"),
             ("signature_status", TagValue.str "verified")] }

/-- Concrete trace for the planner-to-safety scenario: second transition span
carries `signature_status = "failed"`. -/
def spanC1b : ExecutionSpan :=
  { span_id := "s2", parent_span_id := some "s1", trace_id := "tr1",
    operation_name := "countersign_command", service_name := "safety",
    authority_level := "Safety", authority_boundary := none,
    status := "succeeded", signature_in_valid := true,
    tags := [("authority_transition", TagValue.str "Planner:to:Safety"),
             ("signature_status", TagValue.str "failed")] }

/-- A trace whose authority path contains the planner-to-safety transition,
with exactly one matching transition span not verified and no span with
`signature_in_valid == false`. -/
def traceC1 : ExecutionTrace :=
  { trace_id := "tr1", home_id := "home1", spans := [spanC1a, spanC1b],
    authority_path := ["Planner", "Safety"], trace_status := "success" }

/-- Claim C1: for every adjacent pair `(f, t)` in a trace's authority path, if
some span whose `authority_transition` tag contains `"f:to:t"` does not carry
`signature_status == "verified"`, then `verifySignatureChain` reports the
problem string naming that transition and returns `valid = false`; and on the
concrete planner-to-safety trace with exactly one unverified transition span
and no `signature_in_valid == false` span, the result holds exactly one
problem string and `valid = false`. -/
theorem verifySignatureChain_flags_unverified_transitions :
    (∀ (trace : ExecutionTrace) (f t : String) (s : ExecutionSpan),
      (f, t) ∈ trace.authority_path.zip trace.authority_path.tail →
      s ∈ trace.spans →
      isTransitionSpan f t s = true →
      hasVerifiedSignatureStatus s = false →
      transitionProblem f t
          ((trace.spans.filter (isTransitionSpan f t)).length -
            ((trace.spans.filter (isTransitionSpan f t)).filter
              hasVerifiedSignatureStatus).length) ∈
          (verifySignatureChain trace).problems ∧
        (verifySignatureChain trace).valid = false) ∧
    verifySignatureChain traceC1 =
      { valid := false, problems := [transitionProblem "Planner" "Safety" 1],
        verified_spans := 2, failed_spans := 0 } := by
  constructor
  · intro trace f t s hpair hs htrans hstatus
    have hsts : s ∈ trace.spans.filter (isTransitionSpan f t) :=
      List.mem_filter.mpr ⟨hs, htrans⟩
    have hne : ((trace.spans.filter (isTransitionSpan f t)).filter
        hasVerifiedSignatureStatus).length ≠
        (trace.spans.filter (isTransitionSpan f t)).length := by
      intro he
      have hall := (List.filter_length_eq_length).mp he s hsts
      rw [hstatus] at hall
      exact Bool.false_ne_true hall
    have hpos : 0 < (trace.spans.filter (isTransitionSpan f t)).length :=
      List.length_pos_of_mem hsts
    have hmem : transitionProblem f t
        ((trace.spans.filter (isTransitionSpan f t)).length -
          ((trace.spans.filter (isTransitionSpan f t)).filter
            hasVerifiedSignatureStatus).length) ∈ transitionProblems trace := by
      refine List.mem_filterMap.mpr ⟨(f, t), hpair, ?_⟩
      simp only [transitionProblems]
      rw [if_pos ⟨hne, hpos⟩]
    refine ⟨List.mem_append_right _ hmem, ?_⟩
    have hne2 : (trace.spans.filterMap (fun s =>
        if s.signature_in_valid then none
        else some ("Signature validation failed at " ++ s.service_name)) ++
        transitionProblems trace).length ≠ 0 := by
      intro h0
      rw [List.length_append] at h0
      exact (List.ne_nil_of_mem hmem) (List.eq_nil_of_length_eq_zero (Nat.eq_zero_of_add_eq_zero_left h0))
    show (_ && _) = false
    have : ((trace.spans.filterMap (fun s =>
        if s.signature_in_valid then none
        else some ("Signature validation failed at " ++ s.service_name)) ++
        transitionProblems trace).length == 0) = false := by
      simpa using hne2
    rw [this, Bool.and_false]
  · decide

/-- Witness for claim C1 at the concrete planner-to-safety trace. -/
theorem verifySignatureChain_flags_unverified_transitions_witness :
    transitionProblem "Planner" "Safety" 1 ∈ (verifySignatureChain traceC1).problems ∧
      (verifySignatureChain traceC1).valid = false := by
  have h := verifySignatureChain_flags_unverified_transitions.1 traceC1 "Planner" "Safety"
    spanC1b (by decide) (by decide) (by decide) (by decide)
  exact ⟨h.1, h.2⟩

/-- The extraction loop is the fold of the push-if-absent step over the
visited spans. -/
theorem extractAuthorityPathGo_eq_foldl (spans : List ExecutionSpan) :
    ∀ (fuel : Nat) (cur : Option ExecutionSpan) (path : List String),
      extractAuthorityPathGo spans fuel cur path =
        ((walkSpans spans fuel cur).map (fun s => s.authority_level)).foldl
          (fun acc x => if acc.contains x then acc else acc ++ [x]) path := by
  intro fuel
  induction fuel with
  | zero => intro cur path; cases cur <;> rfl
  | succ n ih =>
    intro cur path
    cases cur with
    | none => rfl
    | some c =>
      simp only [extractAuthorityPathGo, walkSpans, List.map_cons, List.foldl_cons]
      exact ih _ _

/-- Root span with authority level Device. -/
def spanC2a : ExecutionSpan :=
  { span_id := "a", parent_span_id := none, trace_id := "tr2",
    operation_name := "device_report", service_name := "device",
    authority_level := "Device", authority_boundary := none,
    status := "succeeded", signature_in_valid := true, tags := [] }

/-- Child span that moves to authority level Planner. -/
def spanC2b : ExecutionSpan :=
  { span_id := "b", parent_span_id := some "a", trace_id := "tr2",
    operation_name := "plan", service_name := "planner",
    authority_level := "Planner", authority_boundary := none,
    status := "succeeded", signature_in_valid := true, tags := [] }

/-- Grandchild span that revisits authority level Device. -/
def spanC2c : ExecutionSpan :=
  { span_id := "c", parent_span_id := some "b", trace_id := "tr2",
    operation_name := "device_apply", service_name := "device",
    authority_level := "Device", authority_boundary := none,
    status := "succeeded", signature_in_valid := true, tags := [] }

/-- A span list whose walk leaves Device and later revisits it. -/
def spansC2 : List ExecutionSpan := [spanC2a, spanC2b, spanC2c]

/-- Claim C2 counterexample: the code's reconstructed path deduplicates
globally, so the revisited Device level does not appear again, while the
claimed consecutive-only deduplication of the same walk would list it twice. -/
theorem extractAuthorityPath_not_consecutive_dedup :
    reconstructAuthorityPath spansC2 3 = ["Device", "Planner"] ∧
      dedupConsecutive ((walkSpans spansC2 3 (some spanC2a)).map
        (fun s => s.authority_level)) = ["Device", "Planner", "Device"] := by
  constructor <;> decide

/-- Claim C2 (amended): for every span list, root reference and fuel, the
reconstructed authority path equals the global deduplication of the authority
levels along the first-child walk: a level already present anywhere earlier in
the path is never appended again, even when revisited. -/
theorem extractAuthorityPath_eq_dedupGlobal_walk :
    ∀ (spans : List ExecutionSpan) (rootSpanId : Option String) (fuel : Nat),
      extractAuthorityPath spans rootSpanId fuel =
        dedupGlobal ((walkSpans spans fuel
          (rootSpanId.bind (fun rid => spans.find? (fun s => s.span_id == rid)))).map
            (fun s => s.authority_level)) := by
  intro spans rootSpanId fuel
  unfold extractAuthorityPath dedupGlobal
  exact extractAuthorityPathGo_eq_foldl spans fuel _ []

/-- ASCII lowercasing of a string, JS `toLowerCase` on the inputs at hand. -/
def strToLower (s : String) : String :=
  ⟨s.data.map Char.toLower⟩

/-- Characters before the first underscore. -/
def firstTokenChars : List Char → List Char
  | [] => []
  | c :: rest => if c == '_' then [] else c :: firstTokenChars rest

/-- JS `b.split("_")[0]`: the boundary's first underscore-delimited token. -/
def firstUnderscoreToken (b : String) : String :=
  ⟨firstTokenChars b.data⟩

/-- Suffix test, JS `endsWith`. -/
def strEndsWith (s suf : String) : Bool :=
  charsPrefix suf.data.reverse s.data.reverse

/-- Result record of `TraceAnalyzer.checkAuthorityBoundaries`. -/
structure BoundaryCheckResult where
  violations : List String
  escalations : List String
deriving DecidableEq, Repr

/-- The violation string pushed at trace-explorer.ts:427-429. -/
def boundaryViolationMsg (s : ExecutionSpan) (b : String) : String :=
  s.service_name ++ ": Operation \x27" ++ s.operation_name ++ "\x27 exceeds boundary \x27" ++
    b ++ "\x27"

/-- The per-span boundary check of trace-explorer.ts:419-431: a truthy
`authority_boundary` containing `"_only"` whose first underscore-delimited
token is missing from the lowercased operation name yields a violation. -/
def boundaryViolationOf (s : ExecutionSpan) : Option String :=
  match s.authority_boundary with
  | some b =>
      if (!(b == "") && strContains b "_only" &&
          !(strContains (strToLower s.operation_name) (firstUnderscoreToken b))) = true then
        some (boundaryViolationMsg s b)
      else none
  | none => none

/-- The privilege-escalation check of trace-explorer.ts:434-443: a Device-level
span whose `initiates_planner_call` tag stringifies to `"true"`. -/
def escalationOf (s : ExecutionSpan) : Option String :=
  if (s.authority_level == "Device" &&
      (match tagLookup s.tags "initiates_planner_call" with
       | some (TagValue.str v) => v == "true"
       | some (TagValue.num _) => false
       | none => false)) = true then
    some ("Device initiated Planner call (possible escalation): " ++ s.operation_name)
  else none

/-- `TraceAnalyzer.checkAuthorityBoundaries` (trace-explorer.ts:410-447). -/
def checkAuthorityBoundaries (trace : ExecutionTrace) : BoundaryCheckResult :=
  { violations := trace.spans.filterMap boundaryViolationOf,
    escalations := trace.spans.filterMap escalationOf }

/-- The boundary predicate as the source decides it, in claim form: boundary
non-null, non-empty and containing `"_only"`, and the lowercased operation
name does not contain the boundary's first underscore-delimited token. -/
def amendedBoundaryFlag (s : ExecutionSpan) : Bool :=
  match s.authority_boundary with
  | some b =>
      !(b == "") && strContains b "_only" &&
        !(strContains (strToLower s.operation_name) (firstUnderscoreToken b))
  | none => false

/-- The boundary predicate as claim C6 words it: the boundary ends in
`"_only"` and the operation name does not contain its first token. -/
def claimedBoundaryFlag (s : ExecutionSpan) : Bool :=
  match s.authority_boundary with
  | some b =>
      strEndsWith b "_only" && !(strContains s.operation_name (firstUnderscoreToken b))
  | none => false

/-- Fold a per-element optional output into a filtered map. -/
theorem filterMap_eq_map_filter {α β : Type} (f : α → Option β) (p : α → Bool) (g : α → β)
    (h : ∀ a, f a = if p a = true then some (g a) else none) (l : List α) :
    l.filterMap f = (l.filter p).map g := by
  induction l with
  | nil => rfl
  | cons a rest ih =>
    rw [List.filterMap_cons, List.filter_cons, h a]
    by_cases hp : p a = true
    · rw [if_pos hp, if_pos hp, List.map_cons, ih]
    · rw [if_neg hp, if_neg hp, ih]

/-- A span whose boundary merely contains (but does not end in) `"_only"`. -/
def spanC6 : ExecutionSpan :=
  { span_id := "x", parent_span_id := none, trace_id := "tr6",
    operation_name := "kitchen_lights_on", service_name := "edge",
    authority_level := "Device", authority_boundary := some "living_room_only_strict",
    status := "succeeded", signature_in_valid := true, tags := [] }

/-- One-span trace for the boundary counterexample. -/
def traceC6 : ExecutionTrace :=
  { trace_id := "tr6", home_id := "home6", spans := [spanC6],
    authority_path := ["Device"], trace_status := "success" }

/-- Claim C6 counterexample: the code flags a span whose boundary
`"living_room_only_strict"` does not end in `"_only"`, so the claim's
ends-in-`"_only"` reading marks no span while the code reports a violation. -/
theorem checkAuthorityBoundaries_flags_non_suffix_boundary :
    (checkAuthorityBoundaries traceC6).violations =
        [boundaryViolationMsg spanC6 "living_room_only_strict"] ∧
      claimedBoundaryFlag spanC6 = false ∧
      strEndsWith "living_room_only_strict" "_only" = false := by
  refine ⟨by decide, by decide, by decide⟩

/-- Claim C6 (amended): `checkAuthorityBoundaries` flags as violations exactly
the spans whose `authority_boundary` is non-null, non-empty and contains
`"_only"` and whose lowercased operation name does not contain the boundary's
first underscore-delimited token, each with its named message, in span order. -/
theorem checkAuthorityBoundaries_violations_characterization :
    ∀ (trace : ExecutionTrace),
      (checkAuthorityBoundaries trace).violations =
        (trace.spans.filter amendedBoundaryFlag).map
          (fun s => boundaryViolationMsg s (s.authority_boundary.getD "")) := by
  intro trace
  refine filterMap_eq_map_filter _ _ _ ?_ trace.spans
  intro s
  cases hb : s.authority_boundary with
  | none => simp [boundaryViolationOf, amendedBoundaryFlag, hb]
  | some b => simp [boundaryViolationOf, amendedBoundaryFlag, hb]

/-- Alert record (`Alert` in alerts.ts), restricted to the fields the engine
and the dedup key functions read. -/
structure Alert where
  alert_id : String
  rule_id : String
  severity : String
  home_id : Option String
  device_id : Option String
  detected_at : Int
  status : String
  title : String
  dedup_key : String
deriving DecidableEq, Repr

/-- Evaluation context (`AlertContext` in alerts.ts); `baseline_metrics` is an
optional numeric record. -/
structure AlertContext where
  current_time : Int
  home_id : String
  fleet_size : Nat
  baseline_metrics : Option (List (String × Int))
deriving DecidableEq, Repr

/-- An alerting rule as the engine consumes it (`AlertingRule` in alerts.ts):
`condition` and `create_alert` are host functions that may throw, modelled by
`Except`. -/
structure AlertingRule (Ev : Type) where
  rule_id : String
  enabled : Bool
  condition : List Ev → AlertContext → Except String Bool
  create_alert : List Ev → AlertContext → Except String Alert
  dedup_key_fn : Alert → String
  dedup_window_seconds : Int

/-- Lookup in the alert-history map (`Map.get`). -/
def histGet (h : List (String × Alert)) (k : String) : Option Alert :=
  (h.find? (fun p => p.1 == k)).map (fun p => p.2)

/-- Update in the alert-history map (`Map.set`): overwrite the key if present,
append otherwise. -/
def histSet (h : List (String × Alert)) (k : String) (a : Alert) : List (String × Alert) :=
  if h.any (fun p => p.1 == k) then
    h.map (fun p => if p.1 == k then (k, a) else p)
  else h ++ [(k, a)]

/-- Result of one `evaluateRules` call: the returned alert list, the updated
alert-history table, and the alert-sink dispatches, each in order. -/
structure EvalResult where
  alerts : List Alert
  history : List (String × Alert)
  dispatched : List Alert
deriving DecidableEq, Repr

/-- The loop body of `AlertingEngine.evaluateRules` (alerts.ts:786-812): run
the condition, materialize the alert, apply deduplication, and on emission
push, store and dispatch; a thrown error leaves the state untouched and the
loop continues. -/
def evalRuleStep {Ev : Type} (events : List Ev) (ctx : AlertContext)
    (st : EvalResult) (rule : AlertingRule Ev) : EvalResult :=
  match rule.condition events ctx with
  | Except.error _ => st
  | Except.ok false => st
  | Except.ok true =>
    match rule.create_alert events ctx with
    | Except.error _ => st
    | Except.ok alert =>
      let dedupKey := rule.dedup_key_fn alert
      match histGet st.history dedupKey with
      | some existingAlert =>
        if ctx.current_time - existingAlert.detected_at > rule.dedup_window_seconds * 1000 then
          { alerts := st.alerts ++ [alert],
            history := histSet st.history dedupKey alert,
            dispatched := st.dispatched ++ [alert] }
        else st
      | none =>
          { alerts := st.alerts ++ [alert],
            history := histSet st.history dedupKey alert,
            dispatched := st.dispatched ++ [alert] }

/-- `AlertingEngine.evaluateRules` (alerts.ts:783-815): fold the loop body
over the enabled rules in registration order. -/
def evaluateRules {Ev : Type} (rules : List (AlertingRule Ev)) (events : List Ev)
    (ctx : AlertContext) (history0 : List (String × Alert)) : EvalResult :=
  (rules.filter (fun r => r.enabled)).foldl (evalRuleStep events ctx)
    { alerts := [], history := history0, dispatched := [] }

/-- Claim C3: when a rule fires and a prior alert sits under the same dedup
key, the new alert is suppressed (not returned, not stored, not dispatched)
exactly when `current_time - prior.detected_at <= dedup_window_seconds * 1000`;
otherwise it is returned, stored over the prior entry, and dispatched. -/
theorem evaluateRules_dedup_window {Ev : Type} (rule : AlertingRule Ev) (events : List Ev)
    (ctx : AlertContext) (hist0 : List (String × Alert)) (alert prior : Alert)
    (hen : rule.enabled = true)
    (hcond : rule.condition events ctx = Except.ok true)
    (hcreate : rule.create_alert events ctx = Except.ok alert)
    (hprior : histGet hist0 (rule.dedup_key_fn alert) = some prior) :
    evaluateRules [rule] events ctx hist0 =
      if ctx.current_time - prior.detected_at ≤ rule.dedup_window_seconds * 1000 then
        { alerts := [], history := hist0, dispatched := [] }
      else
        { alerts := [alert], history := histSet hist0 (rule.dedup_key_fn alert) alert,
          dispatched := [alert] } := by
  have hfilter : ([rule].filter (fun r => r.enabled)) = [rule] := by
    simp [List.filter_cons, hen]
  unfold evaluateRules
  rw [hfilter]
  show evalRuleStep events ctx { alerts := [], history := hist0, dispatched := [] } rule = _
  unfold evalRuleStep
  rw [hcond, hcreate]
  simp only [hprior]
  rcases le_or_lt (ctx.current_time - prior.detected_at) (rule.dedup_window_seconds * 1000)
    with hle | hlt
  · rw [if_neg (not_lt.mpr hle), if_pos hle]
  · rw [if_pos hlt, if_neg (not_le.mpr hlt)]
    simp

/-- The alert produced by the concrete rule of the dedup scenario. -/
def alertW : Alert :=
  { alert_id := "a1", rule_id := "r1", severity := "warning", home_id := none,
    device_id := none, detected_at := 500, status := "active", title := "t1",
    dedup_key := "k" }

/-- The prior alert stored under the dedup key, detected at time 0. -/
def priorW : Alert :=
  { alert_id := "a0", rule_id := "r1", severity := "warning", home_id := none,
    device_id := none, detected_at := 0, status := "active", title := "t0",
    dedup_key := "k" }

/-- A concrete always-firing rule with a 10-second dedup window. -/
def ruleW : AlertingRule Unit :=
  { rule_id := "r1", enabled := true,
    condition := fun _ _ => Except.ok true,
    create_alert := fun _ _ => Except.ok alertW,
    dedup_key_fn := fun _ => "k",
    dedup_window_seconds := 10 }

/-- Context at one millisecond before the dedup window closes. -/
def ctxSuppress : AlertContext :=
  { current_time := 9999, home_id := "h", fleet_size := 1, baseline_metrics := none }

/-- Context at one millisecond after the dedup window closed. -/
def ctxEmit : AlertContext :=
  { current_time := 10001, home_id := "h", fleet_size := 1, baseline_metrics := none }

/-- Witness for claim C3: re-triggering at `detected_at + window*1000 - 1` is
suppressed, and at `detected_at + window*1000 + 1` the alert is emitted,
stored over the prior entry and dispatched. -/
theorem evaluateRules_dedup_window_witness :
    evaluateRules [ruleW] [] ctxSuppress [("k", priorW)] =
        { alerts := [], history := [("k", priorW)], dispatched := [] } ∧
      evaluateRules [ruleW] [] ctxEmit [("k", priorW)] =
        { alerts := [alertW], history := [("k", alertW)], dispatched := [alertW] } := by
  constructor
  · have h := evaluateRules_dedup_window ruleW [] ctxSuppress [("k", priorW)] alertW priorW
      rfl rfl rfl (by decide)
    rw [if_pos (by decide)] at h
    exact h
  · have h := evaluateRules_dedup_window ruleW [] ctxEmit [("k", priorW)] alertW priorW
      rfl rfl rfl (by decide)
    rw [if_neg (by decide)] at h
    rw [h]
    decide

/-- Claim C8: a rule whose condition or alert constructor throws leaves the
evaluation unchanged — result list, history and dispatches equal those of the
run without that rule, and all other rules are still evaluated. -/
theorem evaluateRules_isolates_throwing_rule {Ev : Type}
    (pre post : List (AlertingRule Ev)) (bad : AlertingRule Ev) (events : List Ev)
    (ctx : AlertContext) (hist0 : List (String × Alert))
    (hthrow : (∃ e, bad.condition events ctx = Except.error e) ∨
      (∃ e, bad.create_alert events ctx = Except.error e)) :
    evaluateRules (pre ++ bad :: post) events ctx hist0 =
      evaluateRules (pre ++ post) events ctx hist0 := by
  have hstep : ∀ st, evalRuleStep events ctx st bad = st := by
    intro st
    rcases hthrow with ⟨e, he⟩ | ⟨e, he⟩
    · simp [evalRuleStep, he]
    · cases hc : bad.condition events ctx with
      | error e2 => simp [evalRuleStep, hc]
      | ok b =>
        cases b
        · simp [evalRuleStep, hc]
        · simp [evalRuleStep, hc, he]
  unfold evaluateRules
  rw [List.filter_append, List.filter_append, List.filter_cons]
  by_cases hb : bad.enabled = true
  · rw [if_pos hb, List.foldl_append, List.foldl_append, List.foldl_cons, hstep]
  · rw [if_neg hb]

/-- A rule whose condition always throws. -/
def badRuleW : AlertingRule Unit :=
  { rule_id := "rbad", enabled := true,
    condition := fun _ _ => Except.error "boom",
    create_alert := fun _ _ => Except.error "boom",
    dedup_key_fn := fun _ => "kbad",
    dedup_window_seconds := 60 }

/-- Witness for claim C8: with the throwing rule registered before a healthy
rule, evaluation equals the run without the throwing rule. -/
theorem evaluateRules_isolates_throwing_rule_witness :
    evaluateRules [badRuleW, ruleW] [] ctxEmit [] = evaluateRules [ruleW] [] ctxEmit [] := by
  exact evaluateRules_isolates_throwing_rule [] [ruleW] badRuleW [] ctxEmit []
    (Or.inl ⟨"boom", rfl⟩)

/-- One loop iteration grows the returned alert list by at most one. -/
theorem evalRuleStep_alerts_le {Ev : Type} (events : List Ev) (ctx : AlertContext)
    (st : EvalResult) (r : AlertingRule Ev) :
    (evalRuleStep events ctx st r).alerts.length ≤ st.alerts.length + 1 := by
  unfold evalRuleStep
  cases hc : r.condition events ctx with
  | error e => exact Nat.le_succ _
  | ok b =>
    cases b
    · exact Nat.le_succ _
    · cases hcr : r.create_alert events ctx with
      | error e => exact Nat.le_succ _
      | ok alert =>
        cases hg : histGet st.history (r.dedup_key_fn alert) with
        | none =>
          simp only [hg]
          simp
        | some prior =>
          by_cases hif : ctx.current_time - prior.detected_at > r.dedup_window_seconds * 1000
          · simp only [hg]
            rw [if_pos hif]
            simp
          · simp only [hg]
            rw [if_neg hif]
            exact Nat.le_succ _

/-- Folding the loop body over a rule list grows the alert list by at most the
number of rules. -/
theorem foldl_evalRuleStep_alerts_le {Ev : Type} (events : List Ev) (ctx : AlertContext) :
    ∀ (l : List (AlertingRule Ev)) (st : EvalResult),
      (l.foldl (evalRuleStep events ctx) st).alerts.length ≤ st.alerts.length + l.length := by
  intro l
  induction l with
  | nil => intro st; simp
  | cons r rest ih =>
    intro st
    rw [List.foldl_cons]
    have h1 := ih (evalRuleStep events ctx st r)
    have h2 := evalRuleStep_alerts_le events ctx st r
    calc (rest.foldl (evalRuleStep events ctx) (evalRuleStep events ctx st r)).alerts.length
        ≤ (evalRuleStep events ctx st r).alerts.length + rest.length := h1
      _ ≤ st.alerts.length + 1 + rest.length := Nat.add_le_add_right h2 _
      _ = st.alerts.length + (r :: rest).length := by simp [List.length_cons]; omega

/-- Claim C10: one `evaluateRules` call returns at most one alert per enabled
rule, and a disabled rule changes nothing — no alert, no history write, no
sink dispatch. -/
theorem evaluateRules_bounds_and_disabled {Ev : Type} :
    (∀ (rules : List (AlertingRule Ev)) (events : List Ev) (ctx : AlertContext)
        (hist0 : List (String × Alert)),
      (evaluateRules rules events ctx hist0).alerts.length ≤
        (rules.filter (fun r => r.enabled)).length) ∧
    (∀ (pre post : List (AlertingRule Ev)) (bad : AlertingRule Ev) (events : List Ev)
        (ctx : AlertContext) (hist0 : List (String × Alert)),
      bad.enabled = false →
      evaluateRules (pre ++ bad :: post) events ctx hist0 =
        evaluateRules (pre ++ post) events ctx hist0) := by
  constructor
  · intro rules events ctx hist0
    have h := foldl_evalRuleStep_alerts_le events ctx (rules.filter (fun r => r.enabled))
      { alerts := [], history := hist0, dispatched := [] }
    simpa using h
  · intro pre post bad events ctx hist0 hb
    unfold evaluateRules
    rw [List.filter_append, List.filter_append, List.filter_cons]
    rw [if_neg (by simp [hb])]

/-- A rule that would always fire but is disabled. -/
def disabledRuleW : AlertingRule Unit :=
  { rule_id := "roff", enabled := false,
    condition := fun _ _ => Except.ok true,
    create_alert := fun _ _ => Except.ok alertW,
    dedup_key_fn := fun _ => "koff",
    dedup_window_seconds := 60 }

/-- Witness for claim C10: with one disabled and one enabled rule, at most one
alert is returned, and dropping the disabled rule changes nothing. -/
theorem evaluateRules_bounds_and_disabled_witness :
    (evaluateRules [disabledRuleW, ruleW] [] ctxEmit []).alerts.length ≤
        ([disabledRuleW, ruleW].filter (fun r => r.enabled)).length ∧
      evaluateRules [disabledRuleW, ruleW] [] ctxEmit [] =
        evaluateRules [ruleW] [] ctxEmit [] := by
  exact ⟨(@evaluateRules_bounds_and_disabled Unit).1 [disabledRuleW, ruleW] [] ctxEmit [],
    (@evaluateRules_bounds_and_disabled Unit).2 [] [ruleW] disabledRuleW [] ctxEmit [] rfl⟩

/-- A telemetry event as the latency rule reads it: the discriminant plus the
`command_execution` fields the rule touches. -/
structure TelemetryEvent where
  event_class : String
  submitted_timestamp : Int
  total_latency_ms : Option Int
deriving DecidableEq, Repr

/-- Stable ascending insertion of one element. -/
def insertSorted (x : Int) : List Int → List Int
  | [] => [x]
  | y :: ys => if x ≤ y then x :: y :: ys else y :: insertSorted x ys

/-- `arr.slice().sort((a, b) => a - b)`: the ascending sort of the array. -/
def sortAsc (l : List Int) : List Int :=
  l.foldr insertSorted []

/-- `percentile` (alerts.ts:942-946): nearest-rank with index
`ceil(length * p) - 1`, clamped below at 0. The fraction `p` is passed as the
exact rational `pNum / pDen`, and `ceil(a / b) = (a + b - 1) / b` in natural
division. -/
def percentile (arr : List Int) (pNum pDen : Nat) : Int :=
  let sorted := sortAsc arr
  let index : Int := (((sorted.length * pNum + (pDen - 1)) / pDen : Nat) : Int) - 1
  sorted.getD (max 0 index).toNat 0

/-- alerts.ts:343-345: the `command_execution` events of the window. -/
def cmdEventsOf (events : List TelemetryEvent) : List TelemetryEvent :=
  events.filter (fun e => e.event_class == "command_execution")

/-- alerts.ts:350: `ctx.baseline_metrics?.eval_window_ms || 600000`. -/
def evalWindowMsOf (ctx : AlertContext) : Int :=
  match ctx.baseline_metrics.bind
      (fun m => (m.find? (fun p => p.1 == "eval_window_ms")).map (fun p => p.2)) with
  | some v => if v == 0 then 600000 else v
  | none => 600000

/-- alerts.ts:351: command events submitted after the recency threshold. -/
def recentCmdEventsOf (events : List TelemetryEvent) (ctx : AlertContext) :
    List TelemetryEvent :=
  (cmdEventsOf events).filter
    (fun e => ctx.current_time - evalWindowMsOf ctx < e.submitted_timestamp)

/-- alerts.ts:355-357: the latency values present on a list of events. -/
def latenciesOf (l : List TelemetryEvent) : List Int :=
  (l.filter (fun e => e.total_latency_ms.isSome)).map (fun e => e.total_latency_ms.getD 0)

/-- `ALERT_RULE_LATENCY_P99_BREACH.condition` (alerts.ts:342-363). -/
def latencyP99Condition (events : List TelemetryEvent) (ctx : AlertContext) : Bool :=
  if (cmdEventsOf events).length < 10 then false
  else if (recentCmdEventsOf events ctx).length < 10 then false
  else if (latenciesOf (recentCmdEventsOf events ctx)).length == 0 then false
  else decide (2000 < percentile (latenciesOf (recentCmdEventsOf events ctx)) 99 100)

/-- A command-execution event with no latency value. -/
def eventC4none : TelemetryEvent :=
  { event_class := "command_execution", submitted_timestamp := 1000,
    total_latency_ms := none }

/-- A command-execution event with one high latency value. -/
def eventC4slow : TelemetryEvent :=
  { event_class := "command_execution", submitted_timestamp := 1000,
    total_latency_ms := some 3000 }

/-- Ten recent command-execution events of which only one has a latency value. -/
def eventsC4 : List TelemetryEvent :=
  eventC4slow :: List.replicate 9 eventC4none

/-- Context for the latency counterexample. -/
def ctxC4 : AlertContext :=
  { current_time := 1000, home_id := "h4", fleet_size := 1, baseline_metrics := none }

/-- Claim C4 counterexample: the rule fires on a window with ten
command-execution events of which only one carries a latency value, so the
condition does not require at least ten events with latency values. -/
theorem latencyP99Condition_fires_with_one_latency_value :
    latencyP99Condition eventsC4 ctxC4 = true ∧
      ((cmdEventsOf eventsC4).filter (fun e => e.total_latency_ms.isSome)).length = 1 := by
  refine ⟨by decide, by decide⟩

/-- Claim C4 (amended): the condition holds iff the window has at least ten
command-execution events, at least ten of them recent, at least one recent one
carrying a latency value, and the nearest-rank P99 (index `ceil(n*0.99)-1` of
the ascending sort) of the latencies present exceeds 2000 ms; on the array
`[100, 200, ..., 1000]` that P99 is the maximum 1000. -/
theorem latencyP99Condition_characterization :
    (∀ (events : List TelemetryEvent) (ctx : AlertContext),
      latencyP99Condition events ctx = true ↔
        (10 ≤ (cmdEventsOf events).length ∧
          10 ≤ (recentCmdEventsOf events ctx).length ∧
          (∃ e ∈ recentCmdEventsOf events ctx, e.total_latency_ms.isSome = true) ∧
          2000 < percentile (latenciesOf (recentCmdEventsOf events ctx)) 99 100)) ∧
    percentile [100, 200, 300, 400, 500, 600, 700, 800, 900, 1000] 99 100 = 1000 := by
  constructor
  · intro events ctx
    unfold latencyP99Condition
    by_cases h1 : (cmdEventsOf events).length < 10
    · rw [if_pos h1]
      simp only [Bool.false_eq_true, false_iff]
      rintro ⟨h10, -, -, -⟩
      omega
    · rw [if_neg h1]
      by_cases h2 : (recentCmdEventsOf events ctx).length < 10
      · rw [if_pos h2]
        simp only [Bool.false_eq_true, false_iff]
        rintro ⟨-, h10, -, -⟩
        omega
      · rw [if_neg h2]
        have hlat : ((latenciesOf (recentCmdEventsOf events ctx)).length == 0) = true ↔
            ¬ ∃ e ∈ recentCmdEventsOf events ctx, e.total_latency_ms.isSome = true := by
          simp [latenciesOf, List.length_eq_zero, List.filter_eq_nil_iff]
        by_cases h3 : ((latenciesOf (recentCmdEventsOf events ctx)).length == 0) = true
        · rw [if_pos h3]
          simp only [Bool.false_eq_true, false_iff]
          rintro ⟨-, -, hex, -⟩
          exact (hlat.mp h3) hex
        · rw [if_neg h3]
          constructor
          · intro hd
            refine ⟨by omega, by omega, ?_, by exact_mod_cast of_decide_eq_true hd⟩
            by_contra hex
            exact h3 (hlat.mpr hex)
          · rintro ⟨-, -, -, hp⟩
            exact decide_eq_true hp
  · decide

/-- JS truthiness of an optional number: `undefined`, `null` and `0` are falsy. -/
def optIntTruthy : Option Int → Bool
  | none => false
  | some n => !(n == 0)

/-- Split a character list on a separator character, JS `split` with a
one-character separator (always at least one piece). -/
def splitCharsOn (sep : Char) : List Char → List (List Char)
  | [] => [[]]
  | c :: rest =>
      let r := splitCharsOn sep rest
      if c == sep then [] :: r
      else
        match r with
        | [] => [[c]]
        | g :: gs => (c :: g) :: gs

/-- JS `topic.split(sep)` for a one-character separator. -/
def splitOnChar (sep : Char) (s : String) : List String :=
  (splitCharsOn sep s.data).map (fun cs => ⟨cs⟩)

/-- A telemetry event as `enrichEvent` reads it: the two envelope fields it can
overwrite plus the untouched discriminant. -/
structure IngestEvent where
  event_class : String
  home_id : Option String
  wall_clock_timestamp : Option Int
deriving DecidableEq, Repr

/-- `TelemetryIngestService.enrichEvent` (ingest-service.ts:332-342): spread
the event, fill a falsy `home_id` from `topic.split("/")[2]` and a falsy
`wall_clock_timestamp` from the ingest time `now` (`Date.now()`). -/
def enrichEvent (e : IngestEvent) (topic : String) (now : Int) : IngestEvent :=
  let topicParts := splitOnChar '/' topic
  { e with
    home_id := if optStrTruthy e.home_id then e.home_id else topicParts.get? 2,
    wall_clock_timestamp :=
      if optIntTruthy e.wall_clock_timestamp then e.wall_clock_timestamp else some now }

/-- An event arriving with no `home_id` in the payload. -/
def eventC5 : IngestEvent :=
  { event_class := "device_health", home_id := none, wall_clock_timestamp := some 42 }

/-- Claim C5 counterexample: on the four-segment topic `"p/h/e/s"`, whose
second path segment is `"h"`, a missing `home_id` is filled with the third
segment `"e"`, not the second. -/
theorem enrichEvent_fills_from_third_segment :
    (enrichEvent eventC5 "p/h/e/s" 777).home_id = some "e" ∧
      (splitOnChar '/' "p/h/e/s").get? 1 = some "h" ∧
      ("e" : String) ≠ "h" := by
  refine ⟨by decide, by decide, by decide⟩

/-- Claim C5 (amended): enrichment fills a falsy `home_id` — missing or the
empty string — from the topic's third slash-delimited segment (index 2, the
home position of the deployed `hestia/telemetry/{home_id}/{event_class}/{suffix}`
topics), defaults a falsy `wall_clock_timestamp` — missing or zero — to the
ingest time, preserves a non-empty `home_id` and a non-zero
`wall_clock_timestamp`, each field independently of the other, and leaves an
event with both fields truthy entirely unchanged. -/
theorem enrichEvent_characterization :
    ∀ (e : IngestEvent) (topic : String) (now : Int),
      ((∃ h, e.home_id = some h ∧ h ≠ "") →
        (∃ w, e.wall_clock_timestamp = some w ∧ w ≠ 0) →
        enrichEvent e topic now = e) ∧
      (∀ h, e.home_id = some h → h ≠ "" →
        (enrichEvent e topic now).home_id = some h) ∧
      (e.home_id = none ∨ e.home_id = some "" →
        (enrichEvent e topic now).home_id = (splitOnChar '/' topic).get? 2) ∧
      (∀ w, e.wall_clock_timestamp = some w → w ≠ 0 →
        (enrichEvent e topic now).wall_clock_timestamp = some w) ∧
      (e.wall_clock_timestamp = none ∨ e.wall_clock_timestamp = some 0 →
        (enrichEvent e topic now).wall_clock_timestamp = some now) ∧
      (enrichEvent e topic now).event_class = e.event_class := by
  intro e topic now
  refine ⟨?_, ?_, ?_, ?_, ?_, rfl⟩
  · rintro ⟨h, hh, hne⟩ ⟨w, hw, wne⟩
    have h1 : optStrTruthy e.home_id = true := by
      rw [hh]; simp [optStrTruthy, hne]
    have h2 : optIntTruthy e.wall_clock_timestamp = true := by
      rw [hw]; simp [optIntTruthy, wne]
    simp only [enrichEvent, h1, h2, if_true]
  · intro h hh hne
    have h1 : optStrTruthy e.home_id = true := by
      rw [hh]; simp [optStrTruthy, hne]
    simp only [enrichEvent, h1, if_true]
    exact hh
  · intro hcase
    have h1 : optStrTruthy e.home_id = false := by
      rcases hcase with hh | hh <;> rw [hh] <;> simp [optStrTruthy]
    simp [enrichEvent, h1]
  · intro w hw wne
    have h2 : optIntTruthy e.wall_clock_timestamp = true := by
      rw [hw]; simp [optIntTruthy, wne]
    simp only [enrichEvent, h2, if_true]
    exact hw
  · intro hcase
    have h2 : optIntTruthy e.wall_clock_timestamp = false := by
      rcases hcase with hw | hw <;> rw [hw] <;> simp [optIntTruthy]
    simp [enrichEvent, h2]

/-- An event carrying both a non-empty `home_id` and a non-zero timestamp. -/
def eventC5full : IngestEvent :=
  { event_class := "device_health", home_id := some "home9", wall_clock_timestamp := some 5 }

/-- An event whose `home_id` is the empty string and whose timestamp is zero:
both JS-falsy though present. -/
def eventC5falsy : IngestEvent :=
  { event_class := "mqtt_session", home_id := some "", wall_clock_timestamp := some 0 }

/-- Witness for claim C5 (amended): a fully populated event passes enrichment
unchanged; an empty-string `home_id` and a zero timestamp are filled like
missing ones; and in the mixed event with missing `home_id` the non-zero
timestamp is preserved. -/
theorem enrichEvent_characterization_witness :
    enrichEvent eventC5full "t/x/y/z" 99 = eventC5full ∧
      (enrichEvent eventC5falsy "p/h/e/s" 777).home_id =
        (splitOnChar '/' "p/h/e/s").get? 2 ∧
      (enrichEvent eventC5falsy "p/h/e/s" 777).wall_clock_timestamp = some 777 ∧
      (enrichEvent eventC5 "p/h/e/s" 777).home_id = (splitOnChar '/' "p/h/e/s").get? 2 ∧
      (enrichEvent eventC5 "p/h/e/s" 777).wall_clock_timestamp = some 42 := by
  refine ⟨(enrichEvent_characterization eventC5full "t/x/y/z" 99).1
      ⟨"home9", rfl, by decide⟩ ⟨5, rfl, by decide⟩,
    (enrichEvent_characterization eventC5falsy "p/h/e/s" 777).2.2.1 (Or.inr rfl),
    (enrichEvent_characterization eventC5falsy "p/h/e/s" 777).2.2.2.2.1 (Or.inr rfl),
    (enrichEvent_characterization eventC5 "p/h/e/s" 777).2.2.1 (Or.inl rfl),
    (enrichEvent_characterization eventC5 "p/h/e/s" 777).2.2.2.1 42 rfl (by decide)⟩

/-- A JSON value, the image of `JSON.parse` and the input space of the schema
guard; JS objects have uniquely keyed fields. -/
inductive JVal where
  | jnull
  | jbool (b : Bool)
  | jnum (n : Int)
  | jstr (s : String)
  | jarr (xs : List JVal)
  | jobj (fields : List (String × JVal))

/-- JS property read on an object. -/
def objLookup (fields : List (String × JVal)) (k : String) : Option JVal :=
  (fields.find? (fun p => p.1 == k)).map (fun p => p.2)

/-- JS `k in obj`. -/
def hasKey (fields : List (String × JVal)) (k : String) : Bool :=
  fields.any (fun p => p.1 == k)

/-- `TELEMETRY_VERSION` (telemetry-types.ts:22). -/
def TELEMETRY_VERSION : String := "1.0"

/-- `isTelemetryEvent` (telemetry-types.ts:1129-1138): a truthy object that
carries `version`, `home_id` and `event_class` and whose `version` strictly
equals the supported schema version. -/
def isTelemetryEvent (v : JVal) : Bool :=
  match v with
  | JVal.jobj fields =>
      hasKey fields "version" && hasKey fields "home_id" && hasKey fields "event_class" &&
        (match objLookup fields "version" with
         | some (JVal.jstr s) => s == TELEMETRY_VERSION
         | _ => false)
  | _ => false

/-- Key presence agrees with lookup success. -/
theorem hasKey_eq_isSome (fields : List (String × JVal)) (k : String) :
    hasKey fields k = (objLookup fields k).isSome := by
  unfold hasKey objLookup
  induction fields with
  | nil => rfl
  | cons p rest ih =>
    cases hp : (p.1 == k) with
    | true => simp [List.any_cons, List.find?_cons, hp]
    | false => simp [List.any_cons, List.find?_cons, hp, hasKey, objLookup] at ih ⊢; exact ih

/-- Claim C7: `isTelemetryEvent` accepts exactly the non-null objects carrying
`version`, `home_id` and `event_class` whose `version` is the string `"1.0"`;
a missing field or any other version rejects. -/
theorem isTelemetryEvent_iff :
    ∀ (v : JVal), isTelemetryEvent v = true ↔
      ∃ fields, v = JVal.jobj fields ∧
        hasKey fields "home_id" = true ∧ hasKey fields "event_class" = true ∧
        objLookup fields "version" = some (JVal.jstr "1.0") := by
  intro v
  cases v with
  | jobj fields =>
    constructor
    · intro h
      simp only [isTelemetryEvent, Bool.and_eq_true] at h
      obtain ⟨⟨⟨hv, hh⟩, he⟩, hm⟩ := h
      refine ⟨fields, rfl, hh, he, ?_⟩
      cases hl : objLookup fields "version" with
      | none => simp [hl] at hm
      | some jv =>
        cases jv with
        | jstr s =>
          simp only [hl] at hm
          have hs : s = TELEMETRY_VERSION := eq_of_beq hm
          rw [hs]
          rfl
        | jnull => simp [hl] at hm
        | jbool b => simp [hl] at hm
        | jnum n => simp [hl] at hm
        | jarr xs => simp [hl] at hm
        | jobj fs => simp [hl] at hm
    · rintro ⟨fields2, heq, hh, he, hver⟩
      injection heq with hf
      subst hf
      have hv : hasKey fields "version" = true := by
        rw [hasKey_eq_isSome, hver]; rfl
      simp only [isTelemetryEvent, hv, hh, he, hver, Bool.true_and, Bool.and_true]
      rfl
  | jnull => simp [isTelemetryEvent]
  | jbool b => simp [isTelemetryEvent]
  | jnum n => simp [isTelemetryEvent]
  | jstr s => simp [isTelemetryEvent]
  | jarr xs => simp [isTelemetryEvent]

/-- The event-class discriminant check `event.event_class === c`
(telemetry-types.ts:1151-1153 and 1171). -/
def classIs (fields : List (String × JVal)) (c : String) : Bool :=
  match objLookup fields "event_class" with
  | some (JVal.jstr s) => s == c
  | _ => false

/-- JS `delete obj[k]`, preserving the order of the remaining fields. -/
def removeKey (fields : List (String × JVal)) (k : String) : List (String × JVal) :=
  fields.filter (fun p => !(p.1 == k))

/-- `sanitizeTelemetryEvent` (telemetry-types.ts:1158-1177): copy the event;
on `command_execution` delete `parameters` and `parameter_values`, then on
`planner_output` delete `user_input` and `user_request`. -/
def sanitizeTelemetryEvent (fields : List (String × JVal)) : List (String × JVal) :=
  let s1 := if classIs fields "command_execution" = true then
      removeKey (removeKey fields "parameters") "parameter_values"
    else fields
  if classIs s1 "planner_output" = true then
    removeKey (removeKey s1 "user_input") "user_request"
  else s1

/-- Looking up the deleted key fails. -/
theorem objLookup_removeKey_self (fields : List (String × JVal)) (k : String) :
    objLookup (removeKey fields k) k = none := by
  induction fields with
  | nil => rfl
  | cons p rest ih =>
    cases hp : (p.1 == k) with
    | true => simp [removeKey, objLookup, List.filter_cons, hp] at ih ⊢
    | false =>
      simp only [removeKey, objLookup, List.filter_cons, hp, Bool.not_false, if_true,
        List.find?_cons] at ih ⊢
      exact ih

/-- Looking up any other key is unchanged by the deletion. -/
theorem objLookup_removeKey_ne (fields : List (String × JVal)) {k k2 : String}
    (hne : k2 ≠ k) :
    objLookup (removeKey fields k) k2 = objLookup fields k2 := by
  induction fields with
  | nil => rfl
  | cons p rest ih =>
    cases hp : (p.1 == k) with
    | true =>
      have hp1 : p.1 = k := eq_of_beq hp
      have hpk2 : (p.1 == k2) = false := by
        rw [hp1]
        exact beq_eq_false_iff_ne.mpr (fun he => hne he.symm)
      simp only [removeKey, objLookup, List.filter_cons, hp, Bool.not_true, if_neg,
        List.find?_cons, hpk2] at ih ⊢
      exact ih
    | false =>
      cases hpk2 : (p.1 == k2) with
      | true =>
        simp [removeKey, objLookup, List.filter_cons, hp, List.find?_cons, hpk2]
      | false =>
        simp only [removeKey, objLookup, List.filter_cons, hp, Bool.not_false, if_true,
          List.find?_cons, hpk2] at ih ⊢
        exact ih

/-- Deleting a key other than `event_class` keeps the discriminant. -/
theorem classIs_removeKey (fields : List (String × JVal)) (k c : String)
    (hk : "event_class" ≠ k) :
    classIs (removeKey fields k) c = classIs fields c := by
  unfold classIs
  rw [objLookup_removeKey_ne fields hk]

/-- A `command_execution` event is not a `planner_output` event. -/
theorem classIs_cmd_not_planner (fields : List (String × JVal))
    (hc : classIs fields "command_execution" = true) :
    classIs fields "planner_output" = false := by
  unfold classIs at hc ⊢
  cases hl : objLookup fields "event_class" with
  | none => simp [hl] at hc
  | some jv =>
    cases jv with
    | jstr s =>
      simp only [hl] at hc ⊢
      rw [eq_of_beq hc]
      decide
    | jnull => simp [hl] at hc
    | jbool b => simp [hl] at hc
    | jnum n => simp [hl] at hc
    | jarr xs => simp [hl] at hc
    | jobj fs => simp [hl] at hc

/-- Claim C9: sanitization removes exactly the raw-value fields — `parameters`
and `parameter_values` on `command_execution` events, `user_input` and
`user_request` on `planner_output` events — and leaves every other field (in
particular all hash and ID fields) unchanged; the embedding is a pure function
of the input event, which is returned as a fresh copy. -/
theorem sanitizeTelemetryEvent_lookup :
    ∀ (fields : List (String × JVal)) (k : String),
      objLookup (sanitizeTelemetryEvent fields) k =
        if (classIs fields "command_execution" = true ∧
              (k = "parameters" ∨ k = "parameter_values")) ∨
            (classIs fields "planner_output" = true ∧
              (k = "user_input" ∨ k = "user_request")) then
          none
        else objLookup fields k := by
  intro fields k
  by_cases hc : classIs fields "command_execution" = true
  · have hpl : classIs fields "planner_output" = false := classIs_cmd_not_planner fields hc
    have hs2 : classIs (removeKey (removeKey fields "parameters") "parameter_values")
        "planner_output" = false := by
      rw [classIs_removeKey _ _ _ (by decide), classIs_removeKey _ _ _ (by decide)]
      exact hpl
    have hsan : sanitizeTelemetryEvent fields =
        removeKey (removeKey fields "parameters") "parameter_values" := by
      unfold sanitizeTelemetryEvent
      simp [hc, hs2]
    rw [hsan]
    by_cases hk1 : k = "parameters"
    · subst hk1
      rw [objLookup_removeKey_ne _ (by decide), objLookup_removeKey_self,
        if_pos (Or.inl ⟨hc, Or.inl rfl⟩)]
    · by_cases hk2 : k = "parameter_values"
      · subst hk2
        rw [objLookup_removeKey_self, if_pos (Or.inl ⟨hc, Or.inr rfl⟩)]
      · rw [objLookup_removeKey_ne _ hk2, objLookup_removeKey_ne _ hk1,
          if_neg (by
            rintro (⟨-, hk⟩ | ⟨hp2, -⟩)
            · rcases hk with rfl | rfl
              · exact hk1 rfl
              · exact hk2 rfl
            · simp [hpl] at hp2)]
  · have hs1 : sanitizeTelemetryEvent fields =
        if classIs fields "planner_output" = true then
          removeKey (removeKey fields "user_input") "user_request"
        else fields := by
      unfold sanitizeTelemetryEvent
      simp [hc]
    by_cases hp : classIs fields "planner_output" = true
    · rw [hs1, if_pos hp]
      by_cases hk1 : k = "user_input"
      · subst hk1
        rw [objLookup_removeKey_ne _ (by decide), objLookup_removeKey_self,
          if_pos (Or.inr ⟨hp, Or.inl rfl⟩)]
      · by_cases hk2 : k = "user_request"
        · subst hk2
          rw [objLookup_removeKey_self, if_pos (Or.inr ⟨hp, Or.inr rfl⟩)]
        · rw [objLookup_removeKey_ne _ hk2, objLookup_removeKey_ne _ hk1,
            if_neg (by
              rintro (⟨hc2, -⟩ | ⟨-, hk⟩)
              · exact hc hc2
              · rcases hk with rfl | rfl
                · exact hk1 rfl
                · exact hk2 rfl)]
    · rw [hs1, if_neg hp,
        if_neg (by
          rintro (⟨hc2, -⟩ | ⟨hp2, -⟩)
          · exact hc hc2
          · exact hp hp2)]

end Hestia
